import Mathlib

/-!
# Verification of the NPD wellbore web scraper (`npd_webscraper.py`)

A shallow embedding of the `WebScraper` class.  HTML documents are modelled
at the granularity the scraper observes them: a parsed document is the list
of table bodies matched by the fixed selector `div div div div div table
tbody`; a table body is its list of rows (`find_all('tr')`); a row is its
list of `td` cells (`find_all('td')`); a cell is its extracted text
(`get_text(strip=False)`) together with the text of a contained `button`
element if one is present (`find('button')`).  Python strings become Lean
`String`s; Python string operations (`split`, `strip`, `re.sub(r'\n+',' ',·)`)
are translated to explicit recursive functions on `List Char`.  The mutation
of `self` and the raised exceptions are modelled by methods returning the new
object state together with `Except String` for the raised message.
-/

/-- A table cell as the scraper observes it: the cell text as returned by
`get_text(strip=False)`, and, when the cell contains a `button` element,
that button's raw text (`find('button')` returning the element). -/
structure Cell where
  text : String
  button : Option String
deriving DecidableEq, Repr

/-- A table row: its list of `td` cells, in document order (`find_all('td')`). -/
structure Row where
  tds : List Cell
deriving DecidableEq, Repr

/-- A table body: its rows in document order (`find_all('tr')`). -/
structure Tbody where
  rows : List Row
deriving DecidableEq, Repr

/-- A parsed document, at the granularity the scraper observes it: the list
of table bodies matched by `soup.select('div div div div div table tbody')`,
in selection order. -/
structure Doc where
  tbodies : List Tbody
deriving DecidableEq, Repr

/-- An HTTP response: the status code, and the content already in parsed
form (the scraper feeds `response.content` straight to `BeautifulSoup`, so
the model lets the response carry the parse result). -/
structure Response where
  status_code : Nat
  content : Doc
deriving DecidableEq, Repr

/-- The scraper object: `url`, the optional parsed document `soup`, and the
two accumulating lists `attributes` and `values`. -/
structure WebScraper where
  url : String
  soup : Option Doc
  attributes : List String
  values : List String
deriving DecidableEq, Repr

/-- The two-column result of `create_dataframe`: a pandas `DataFrame` with
columns named `Attribute` and `Value`. -/
structure DataFrame where
  attributeCol : List String
  valueCol : List String
deriving DecidableEq, Repr

namespace WebScraper

/-- `__init__`: store the url, leave `soup` unset and both lists empty. -/
def init (url : String) : WebScraper :=
  { url := url, soup := none, attributes := [], values := [] }

/-- `fetch_webpage`: on status 200 parse the content into `soup`; otherwise
raise `Exception(f"Failed to retrieve the webpage: {self.url}")`, leaving the
object unchanged. -/
def fetch_webpage (s : WebScraper) (response : Response) :
    WebScraper × Except String Unit :=
  if response.status_code = 200 then
    ({ s with soup := some response.content }, Except.ok ())
  else
    (s, Except.error ("Failed to retrieve the webpage: " ++ s.url))

/-- The text of a Python `str.split(sep)[0]` for a non-empty separator: the
part of the list before the first occurrence of `sep`, the whole list when
`sep` does not occur. -/
def splitFirst (sep : List Char) : List Char → List Char
  | [] => []
  | c :: cs =>
    if List.isPrefixOf sep (c :: cs) then []
    else c :: splitFirst sep cs

/-- The separator `'\n\n\n\n'` used by `clean_attribute`. -/
def nl4 : List Char := ['\n', '\n', '\n', '\n']

/-- `clean_attribute`: `attribute_td.get_text(strip=False)` followed by
`.split('\n\n\n\n')[0]`. -/
def clean_attribute (attribute_td : Cell) : String :=
  String.mk (splitFirst nl4 attribute_td.text.data)

/-- Python `str.strip()` on a list of characters: drop whitespace from both
ends. -/
def stripChars (l : List Char) : List Char :=
  ((l.dropWhile Char.isWhitespace).reverse.dropWhile Char.isWhitespace).reverse

/-- Python `str.strip()` / BeautifulSoup `get_text(strip=True)`: the cell or
button text with leading and trailing whitespace removed. -/
def pyStrip (s : String) : String :=
  String.mk (stripChars s.data)

/-- `extract_value`: if the cell contains a button, `button.get_text(strip=True)`;
otherwise `value_td.get_text(strip=True)`. -/
def extract_value (value_td : Cell) : String :=
  match value_td.button with
  | some b => pyStrip b
  | none => pyStrip value_td.text

/-- `process_row`: the first `td` cleaned as attribute and the second `td`
as value, each `None` when the corresponding cell is absent. -/
def process_row (row : Row) : Option String × Option String :=
  (row.tds[0]?.map clean_attribute, row.tds[1]?.map extract_value)

/-- The body of the row loop of `extract_table_data`: process the row and
append the pair to both accumulating lists exactly when `attribute and value`
is truthy in Python, i.e. both are present and non-empty. -/
def step (acc : List String × List String) (row : Row) :
    List String × List String :=
  match process_row row with
  | (some a, some v) =>
    if a ≠ "" ∧ v ≠ "" then
      (acc.1 ++ [a], acc.2 ++ [v])
    else acc
  | _ => acc

/-- The inner loop of `extract_table_data` over the rows of one table body. -/
def rowsLoop (acc : List String × List String) (rows : List Row) :
    List String × List String :=
  rows.foldl step acc

/-- The outer loop of `extract_table_data` over the selected table bodies. -/
def extractLoop (acc : List String × List String) (tbodies : List Tbody) :
    List String × List String :=
  tbodies.foldl (fun a tb => rowsLoop a tb.rows) acc

/-- `extract_table_data`: raise when `soup` is unset, otherwise run the two
nested loops, appending retained pairs to the accumulating lists. -/
def extract_table_data (s : WebScraper) : WebScraper × Except String Unit :=
  match s.soup with
  | none =>
    (s, Except.error "Soup object is not initialized. Call fetch_webpage() first.")
  | some doc =>
    let acc := extractLoop (s.attributes, s.values) doc.tbodies
    ({ s with attributes := acc.1, values := acc.2 }, Except.ok ())

/-- Helper for `re.sub(r'\n+', ' ', ·)`: the flag records whether the
previous character was a newline (so the current run already produced its
space). -/
def subNLAux : Bool → List Char → List Char
  | _, [] => []
  | inRun, c :: rest =>
    if c = '\n' then
      if inRun then subNLAux true rest
      else ' ' :: subNLAux true rest
    else c :: subNLAux false rest

/-- Python `re.sub(r'\n+', ' ', ·)` on a list of characters: each maximal run
of newline characters becomes a single space. -/
def subNL (l : List Char) : List Char :=
  subNLAux false l

/-- The lambda applied to every entry of the `Attribute` column:
`re.sub(r'\n+', ' ', x).strip()`. -/
def normalizeAttribute (x : String) : String :=
  pyStrip (String.mk (subNL x.data))

/-- `create_dataframe`: build the two-column frame from the accumulated
lists, then normalize the `Attribute` column entrywise. -/
def create_dataframe (s : WebScraper) : DataFrame :=
  { attributeCol := s.attributes.map normalizeAttribute,
    valueCol := s.values }

/-- `scrape`: fetch, extract and tabulate, propagating the first raised
exception and returning no table in that case. -/
def scrape (s : WebScraper) (response : Response) :
    WebScraper × Except String DataFrame :=
  let r1 := fetch_webpage s response
  match r1.2 with
  | Except.error e => (r1.1, Except.error e)
  | Except.ok _ =>
    let r2 := extract_table_data r1.1
    match r2.2 with
    | Except.error e => (r2.1, Except.error e)
    | Except.ok _ => (r2.1, Except.ok (create_dataframe r2.1))

/-- All rows of the document, iterating table bodies in selection order and
rows in document order within each body. -/
def allRows (doc : Doc) : List Row :=
  doc.tbodies.flatMap Tbody.rows

/-- Restatement, in the spec's words, of which rows are retained: the row has
at least two cells, and both the cleaned attribute and the extracted value
are non-empty.  Used to compare the loop of `extract_table_data` against the
specification. -/
def qualifiesSpec (r : Row) : Bool :=
  match r.tds with
  | a :: v :: _ => clean_attribute a ≠ "" && extract_value v ≠ ""
  | _ => false

/-- The attribute a retained row contributes. -/
def rowAttr (r : Row) : String :=
  (process_row r).1.getD ""

/-- The value a retained row contributes. -/
def rowValue (r : Row) : String :=
  (process_row r).2.getD ""

/-- The attributes one extraction pass over `doc` appends, in encounter
order. -/
def retainedAttrs (doc : Doc) : List String :=
  ((allRows doc).filter qualifiesSpec).map rowAttr

/-- The values one extraction pass over `doc` appends, in encounter order. -/
def retainedValues (doc : Doc) : List String :=
  ((allRows doc).filter qualifiesSpec).map rowValue

/-- A qualifying row: attribute cell with boilerplate after the marker, plain
value cell with surrounding whitespace. -/
def sampleRowFull : Row :=
  { tds := [⟨"Depth\n\n\n\nmeters", none⟩, ⟨" 2713 ", none⟩] }

/-- A row with a single cell, which extraction must skip. -/
def sampleRowShort : Row :=
  { tds := [⟨"lonely", none⟩] }

/-- A row whose cleaned attribute is empty (the marker starts the cell), which
extraction must skip. -/
def sampleRowEmptyAttr : Row :=
  { tds := [⟨"\n\n\n\nonly boilerplate", none⟩, ⟨"v", none⟩] }

/-- A qualifying row whose value cell contains a button next to other text. -/
def sampleRowButton : Row :=
  { tds := [⟨"Position", none⟩, ⟨"ignored sibling text", some " Show map "⟩] }

/-- A sample document with two table bodies mixing qualifying and skipped
rows. -/
def sampleDoc : Doc :=
  { tbodies := [{ rows := [sampleRowFull, sampleRowShort] },
                { rows := [sampleRowEmptyAttr, sampleRowButton] }] }

/-- A scraper that has already fetched `sampleDoc`. -/
def sampleScraper : WebScraper :=
  { url := "https://example.test/page", soup := some sampleDoc,
    attributes := [], values := [] }

theorem step_not_qualifying (acc : List String × List String) (r : Row)
    (h : qualifiesSpec r = false) : step acc r = acc := by
  rcases r with ⟨tds⟩
  match tds with
  | [] => rfl
  | [a] => rfl
  | a :: v :: rest =>
    simp only [step, process_row, List.getElem?_cons_zero, List.getElem?_cons_succ,
      Option.map_some']
    rw [if_neg]
    rintro ⟨h1, h2⟩
    simp [qualifiesSpec, h1, h2] at h

theorem step_qualifying (acc : List String × List String) (r : Row)
    (h : qualifiesSpec r = true) :
    step acc r = (acc.1 ++ [rowAttr r], acc.2 ++ [rowValue r]) := by
  rcases r with ⟨tds⟩
  match tds with
  | [] => simp [qualifiesSpec] at h
  | [a] => simp [qualifiesSpec] at h
  | a :: v :: rest =>
    simp only [qualifiesSpec, Bool.and_eq_true, decide_eq_true_eq] at h
    simp [step, process_row, rowAttr, rowValue, h.1, h.2]

theorem rowsLoop_eq (rows : List Row) :
    ∀ acc, rowsLoop acc rows
      = (acc.1 ++ (rows.filter qualifiesSpec).map rowAttr,
         acc.2 ++ (rows.filter qualifiesSpec).map rowValue) := by
  induction rows with
  | nil => intro acc; simp [rowsLoop]
  | cons r rest ih =>
    intro acc
    have hfold : rowsLoop acc (r :: rest) = rowsLoop (step acc r) rest := rfl
    rw [hfold, ih]
    cases hq : qualifiesSpec r with
    | false =>
      rw [step_not_qualifying _ _ hq]
      simp [List.filter_cons, hq]
    | true =>
      rw [step_qualifying _ _ hq]
      simp [List.filter_cons, hq]

theorem extractLoop_eq (tbodies : List Tbody) :
    ∀ acc, extractLoop acc tbodies
      = (acc.1 ++ ((tbodies.flatMap Tbody.rows).filter qualifiesSpec).map rowAttr,
         acc.2 ++ ((tbodies.flatMap Tbody.rows).filter qualifiesSpec).map rowValue) := by
  induction tbodies with
  | nil => intro acc; simp [extractLoop]
  | cons tb rest ih =>
    intro acc
    have hfold : extractLoop acc (tb :: rest) = extractLoop (rowsLoop acc tb.rows) rest := rfl
    rw [hfold, ih, rowsLoop_eq]
    simp [List.flatMap_cons, List.filter_append]

theorem extract_table_data_some (s : WebScraper) (doc : Doc) (h : s.soup = some doc) :
    extract_table_data s
      = ({ s with attributes := s.attributes ++ retainedAttrs doc,
                  values := s.values ++ retainedValues doc }, Except.ok ()) := by
  simp [extract_table_data, h, extractLoop_eq, retainedAttrs, retainedValues, allRows]

theorem splitFirst_first_occurrence (sep : List Char) (hne : sep ≠ []) :
    ∀ a b : List Char,
      (∀ i < a.length, ¬ sep <+: (a ++ (sep ++ b)).drop i) →
      splitFirst sep (a ++ (sep ++ b)) = a := by
  intro a
  induction a with
  | nil =>
    intro b _
    match sep, hne with
    | c :: cs, _ =>
      show splitFirst (c :: cs) (c :: (cs ++ b)) = []
      rw [splitFirst, if_pos]
      exact List.isPrefixOf_iff_prefix.mpr (List.prefix_append (c :: cs) b)
  | cons x a' ih =>
    intro b h
    have h0 : ¬ sep <+: (x :: (a' ++ (sep ++ b))) := by
      have := h 0 (by simp)
      simpa using this
    have hpre : ¬ List.isPrefixOf sep (x :: (a' ++ (sep ++ b))) = true := fun hp =>
      h0 (List.isPrefixOf_iff_prefix.mp hp)
    have h' : ∀ i < a'.length, ¬ sep <+: (a' ++ (sep ++ b)).drop i := by
      intro i hi
      have := h (i + 1) (by simpa using Nat.succ_lt_succ hi)
      simpa using this
    show splitFirst sep (x :: (a' ++ (sep ++ b))) = x :: a'
    rw [splitFirst, if_neg hpre, ih b h']

theorem splitFirst_no_marker (sep : List Char) :
    ∀ l : List Char, ¬ sep <:+: l → splitFirst sep l = l := by
  intro l
  induction l with
  | nil => intro _; rfl
  | cons c cs ih =>
    intro h
    have hpre : ¬ List.isPrefixOf sep (c :: cs) = true := fun hp =>
      h ((List.isPrefixOf_iff_prefix.mp hp).isInfix)
    have htail : ¬ sep <:+: cs := fun hi => h (List.infix_cons hi)
    rw [splitFirst, if_neg hpre, ih htail]

theorem head?_dropWhile_false (p : Char → Bool) :
    ∀ (l : List Char) (c : Char), (l.dropWhile p).head? = some c → p c = false := by
  intro l
  induction l with
  | nil => intro c h; simp [List.dropWhile] at h
  | cons x xs ih =>
    intro c h
    rw [List.dropWhile_cons] at h
    by_cases hp : p x = true
    · rw [if_pos hp] at h
      exact ih c h
    · rw [if_neg hp] at h
      simp only [List.head?_cons, Option.some.injEq] at h
      subst h
      simpa using hp

theorem stripChars_head (l : List Char) (c : Char)
    (h : (stripChars l).head? = some c) : c.isWhitespace = false := by
  unfold stripChars at h
  rw [List.head?_reverse] at h
  obtain ⟨t, ht⟩ :=
    List.dropWhile_suffix (l := (l.dropWhile Char.isWhitespace).reverse)
      (p := Char.isWhitespace)
  have hBne : (l.dropWhile Char.isWhitespace).reverse.dropWhile Char.isWhitespace ≠ [] := by
    intro hB0
    rw [hB0] at h
    simp at h
  have hlast : (l.dropWhile Char.isWhitespace).reverse.getLast? = some c := by
    rw [← ht, List.getLast?_append_of_ne_nil t hBne, h]
  rw [List.getLast?_reverse] at hlast
  exact head?_dropWhile_false _ _ _ hlast

theorem stripChars_getLast (l : List Char) (c : Char)
    (h : (stripChars l).getLast? = some c) : c.isWhitespace = false := by
  unfold stripChars at h
  rw [List.getLast?_reverse] at h
  exact head?_dropWhile_false _ _ _ h

theorem subNLAux_no_newline :
    ∀ (l : List Char), '\n' ∉ l → ∀ flag, subNLAux flag l = l := by
  intro l
  induction l with
  | nil => intro _ flag; rfl
  | cons c cs ih =>
    intro h flag
    have hc : ¬ c = '\n' := fun hc => h (hc ▸ List.mem_cons_self c cs)
    have hcs : '\n' ∉ cs := fun hm => h (List.mem_cons_of_mem c hm)
    rw [subNLAux, if_neg hc, ih hcs false]

theorem subNLAux_true_replicate (n : Nat) (l : List Char) :
    subNLAux true (List.replicate n '\n' ++ l) = subNLAux true l := by
  induction n with
  | zero => rfl
  | succ m ih =>
    show subNLAux true ('\n' :: (List.replicate m '\n' ++ l)) = subNLAux true l
    rw [subNLAux, if_pos rfl, if_pos rfl, ih]

theorem subNLAux_true_of_head (l : List Char) (h : l.head? ≠ some '\n') :
    subNLAux true l = subNLAux false l := by
  match l with
  | [] => rfl
  | c :: cs =>
    have hc : ¬ c = '\n' := by
      intro hc
      exact h (by rw [hc]; rfl)
    rw [subNLAux, subNLAux, if_neg hc, if_neg hc]

theorem subNL_replicate (n : Nat) (l : List Char) (h : l.head? ≠ some '\n') :
    subNL (List.replicate (n + 1) '\n' ++ l) = ' ' :: subNL l := by
  show subNLAux false ('\n' :: (List.replicate n '\n' ++ l)) = ' ' :: subNLAux false l
  rw [subNLAux, if_pos rfl, if_neg (by simp), subNLAux_true_replicate,
    subNLAux_true_of_head l h]

theorem subNL_append_no_newline (l₁ l₂ : List Char) (h : '\n' ∉ l₁) :
    subNL (l₁ ++ l₂) = l₁ ++ subNL l₂ := by
  induction l₁ with
  | nil => rfl
  | cons c cs ih =>
    have hc : ¬ c = '\n' := fun hc => h (hc ▸ List.mem_cons_self c cs)
    have hcs : '\n' ∉ cs := fun hm => h (List.mem_cons_of_mem c hm)
    show subNLAux false (c :: (cs ++ l₂)) = c :: (cs ++ subNL l₂)
    rw [subNLAux, if_neg hc]
    exact congrArg (c :: ·) (ih hcs)

/-- C1: a row's (attribute, value) pair is appended to the accumulating lists
exactly when the row has at least two cells and both the cleaned attribute
and the extracted value are non-empty; with empty initial lists the result
table's row count equals the count of qualifying rows. -/
theorem extraction_retains_exactly_qualifying_rows
    (s : WebScraper) (doc : Doc)
    (hsoup : s.soup = some doc) (ha : s.attributes = []) (hv : s.values = []) :
    (∀ (acc : List String × List String) (r : Row),
      step acc r
        = if qualifiesSpec r then (acc.1 ++ [rowAttr r], acc.2 ++ [rowValue r])
          else acc) ∧
    (create_dataframe (extract_table_data s).1).attributeCol.length
      = (allRows doc).countP qualifiesSpec ∧
    (create_dataframe (extract_table_data s).1).valueCol.length
      = (allRows doc).countP qualifiesSpec := by
  refine ⟨?_, ?_, ?_⟩
  · intro acc r
    cases hq : qualifiesSpec r with
    | false => rw [if_neg (by simp [hq]), step_not_qualifying _ _ hq]
    | true => rw [if_pos (by simp [hq]), step_qualifying _ _ hq]
  · rw [extract_table_data_some s doc hsoup]
    simp [create_dataframe, ha, retainedAttrs, List.countP_eq_length_filter]
  · rw [extract_table_data_some s doc hsoup]
    simp [create_dataframe, hv, retainedValues, List.countP_eq_length_filter]

/-- Witness for C1 at the sample document: two of its four rows qualify. -/
theorem extraction_retains_exactly_qualifying_rows_witness :
    (create_dataframe (extract_table_data sampleScraper).1).attributeCol.length
      = (allRows sampleDoc).countP qualifiesSpec :=
  (extraction_retains_exactly_qualifying_rows sampleScraper sampleDoc rfl rfl rfl).2.1

/-- C2: the retained pairs are appended in encounter order: table bodies in
selection order, rows in document order within each body, each retained row
contributing its cleaned attribute and extracted value. -/
theorem extraction_preserves_document_order (s : WebScraper) (doc : Doc)
    (hsoup : s.soup = some doc) :
    (extract_table_data s).1.attributes
      = s.attributes
        ++ ((doc.tbodies.flatMap Tbody.rows).filter qualifiesSpec).map rowAttr ∧
    (extract_table_data s).1.values
      = s.values
        ++ ((doc.tbodies.flatMap Tbody.rows).filter qualifiesSpec).map rowValue := by
  rw [extract_table_data_some s doc hsoup]
  exact ⟨rfl, rfl⟩

/-- Witness for C2: the sample document's two qualifying rows appear in
document order. -/
theorem extraction_preserves_document_order_witness :
    (extract_table_data sampleScraper).1.attributes = ["Depth", "Position"] ∧
    (extract_table_data sampleScraper).1.values = ["2713", "Show map"] := by
  have h := extraction_preserves_document_order sampleScraper sampleDoc rfl
  exact ⟨h.1.trans (by decide), h.2.trans (by decide)⟩

/-- C3: `clean_attribute` extracts the cell text without stripping and
truncates at the first occurrence of four consecutive newlines, keeping the
text before the marker; text without the marker is kept whole. -/
theorem clean_attribute_truncates_at_marker :
    (∀ (t : Cell) (a b : List Char),
      t.text.data = a ++ (nl4 ++ b) →
      (∀ i < a.length, ¬ nl4 <+: t.text.data.drop i) →
      clean_attribute t = String.mk a) ∧
    (∀ t : Cell, ¬ nl4 <:+: t.text.data → clean_attribute t = t.text) := by
  constructor
  · intro t a b hdec hfirst
    rw [hdec] at hfirst
    unfold clean_attribute
    rw [hdec, splitFirst_first_occurrence nl4 (by decide) a b hfirst]
  · intro t h
    unfold clean_attribute
    rw [splitFirst_no_marker nl4 t.text.data h]

/-- Witness for C3: `"Depth\n\n\n\nmeters"` cleans to `"Depth"`, and text
without the marker is untouched. -/
theorem clean_attribute_truncates_at_marker_witness :
    clean_attribute ⟨"Depth\n\n\n\nmeters", none⟩ = "Depth" ∧
    clean_attribute ⟨" no marker ", none⟩ = " no marker " := by
  constructor
  · exact (clean_attribute_truncates_at_marker.1 ⟨"Depth\n\n\n\nmeters", none⟩
      "Depth".data "meters".data (by decide) (by decide)).trans (by decide)
  · exact clean_attribute_truncates_at_marker.2 ⟨" no marker ", none⟩ (by decide)

/-- C4: a button's trimmed text is the value whenever a button is present,
independently of the rest of the cell; otherwise the trimmed cell text is the
value; either way the result carries no leading or trailing whitespace. -/
theorem extract_value_button_priority :
    (∀ (c : Cell) (b : String), c.button = some b → extract_value c = pyStrip b) ∧
    (∀ (t t' b : String),
      extract_value { text := t, button := some b }
        = extract_value { text := t', button := some b }) ∧
    (∀ c : Cell, c.button = none → extract_value c = pyStrip c.text) ∧
    (∀ (c : Cell) (ch : Char),
      (extract_value c).data.head? = some ch → ch.isWhitespace = false) ∧
    (∀ (c : Cell) (ch : Char),
      (extract_value c).data.getLast? = some ch → ch.isWhitespace = false) := by
  refine ⟨?_, ?_, ?_, ?_, ?_⟩
  · intro c b h
    simp [extract_value, h]
  · intro t t' b
    rfl
  · intro c h
    simp [extract_value, h]
  · intro c ch h
    cases hb : c.button with
    | none =>
      simp only [extract_value, hb, pyStrip] at h
      exact stripChars_head _ _ h
    | some b =>
      simp only [extract_value, hb, pyStrip] at h
      exact stripChars_head _ _ h
  · intro c ch h
    cases hb : c.button with
    | none =>
      simp only [extract_value, hb, pyStrip] at h
      exact stripChars_getLast _ _ h
    | some b =>
      simp only [extract_value, hb, pyStrip] at h
      exact stripChars_getLast _ _ h

/-- Witness for C4: a cell with a button labeled `" Show map "` yields
`"Show map"`, whatever else the cell holds. -/
theorem extract_value_button_priority_witness :
    extract_value ⟨"sibling text around the button", some " Show map "⟩
      = "Show map" :=
  (extract_value_button_priority.1
    ⟨"sibling text around the button", some " Show map "⟩ " Show map " rfl).trans
    (by decide)

/-- C5: tabulation maps every attribute entry through newline-run collapsing
followed by trimming, and returns every value entry unchanged; `subNL`
collapses exactly the maximal newline runs, each to a single space. -/
theorem dataframe_normalizes_attribute_column :
    (∀ s : WebScraper, (create_dataframe s).valueCol = s.values) ∧
    (∀ s : WebScraper,
      (create_dataframe s).attributeCol = s.attributes.map normalizeAttribute) ∧
    (∀ x : String, normalizeAttribute x = pyStrip (String.mk (subNL x.data))) ∧
    (∀ l : List Char, '\n' ∉ l → subNL l = l) ∧
    (∀ (n : Nat) (l : List Char), l.head? ≠ some '\n' →
      subNL (List.replicate (n + 1) '\n' ++ l) = ' ' :: subNL l) ∧
    (∀ l₁ l₂ : List Char, '\n' ∉ l₁ → subNL (l₁ ++ l₂) = l₁ ++ subNL l₂) := by
  refine ⟨fun s => rfl, fun s => rfl, fun x => rfl, ?_, subNL_replicate,
    subNL_append_no_newline⟩
  intro l h
  exact subNLAux_no_newline l h false

/-- Witness for C5: `"Well\ntype\n\ncategory"` normalizes to
`"Well type category"` while the value column is returned verbatim. -/
theorem dataframe_normalizes_attribute_column_witness :
    (create_dataframe
        { url := "u", soup := none,
          attributes := ["Well\ntype\n\ncategory"], values := [" kept as-is "] }).attributeCol
      = ["Well type category"] ∧
    (create_dataframe
        { url := "u", soup := none,
          attributes := ["Well\ntype\n\ncategory"], values := [" kept as-is "] }).valueCol
      = [" kept as-is "] ∧
    subNL "abc".data = "abc".data := by
  have h := dataframe_normalizes_attribute_column
  refine ⟨(h.2.1 _).trans (by decide), h.1 _, h.2.2.2.1 "abc".data (by decide)⟩

/-- C6: a non-200 response makes `fetch_webpage` raise an error naming the
requested URL, leaves the object unchanged (in particular `soup` stays
unset), and makes the pipeline return no table. -/
theorem fetch_failure_aborts (s : WebScraper) (response : Response)
    (h : response.status_code ≠ 200) :
    fetch_webpage s response
      = (s, Except.error ("Failed to retrieve the webpage: " ++ s.url)) ∧
    scrape s response
      = (s, Except.error ("Failed to retrieve the webpage: " ++ s.url)) ∧
    s.url.data <:+: ("Failed to retrieve the webpage: " ++ s.url).data ∧
    (fetch_webpage s response).1.soup = s.soup := by
  have hfetch : fetch_webpage s response
      = (s, Except.error ("Failed to retrieve the webpage: " ++ s.url)) := by
    unfold fetch_webpage
    rw [if_neg h]
  refine ⟨hfetch, ?_, ?_, by rw [hfetch]⟩
  · unfold scrape
    rw [hfetch]
  · rw [String.data_append]
    exact (List.suffix_append _ _).isInfix

/-- Witness for C6: a 404 response raises the error naming the URL and
returns the scraper unchanged. -/
theorem fetch_failure_aborts_witness :
    fetch_webpage (init "https://factpages.sodir.no/x")
        { status_code := 404, content := { tbodies := [] } }
      = (init "https://factpages.sodir.no/x",
         Except.error
           ("Failed to retrieve the webpage: " ++ "https://factpages.sodir.no/x")) :=
  (fetch_failure_aborts (init "https://factpages.sodir.no/x")
    { status_code := 404, content := { tbodies := [] } } (by decide)).1

/-- C7: extraction before a successful fetch (while `soup` is unset) raises a
descriptive error and changes nothing, instead of silently returning empty
results. -/
theorem extract_before_fetch_raises (s : WebScraper) (h : s.soup = none) :
    extract_table_data s
      = (s, Except.error "Soup object is not initialized. Call fetch_webpage() first.") ∧
    ∀ e : Unit, (extract_table_data s).2 ≠ Except.ok e := by
  have heq : extract_table_data s
      = (s, Except.error "Soup object is not initialized. Call fetch_webpage() first.") := by
    unfold extract_table_data
    rw [h]
  exact ⟨heq, fun e hok => by rw [heq] at hok; exact Except.noConfusion hok⟩

/-- Witness for C7: extraction on a freshly initialized scraper raises. -/
theorem extract_before_fetch_raises_witness :
    extract_table_data (init "https://example.test/page")
      = (init "https://example.test/page",
         Except.error "Soup object is not initialized. Call fetch_webpage() first.") :=
  (extract_before_fetch_raises (init "https://example.test/page") rfl).1

/-- C8: the attributes and values lists have equal length after every
operation: initially both are empty, fetching never touches them, extraction
appends to both together, and the dataframe receives two equal-length
columns. -/
theorem parallel_lists_equal_length (s : WebScraper) (response : Response)
    (doc : Doc) (hlen : s.attributes.length = s.values.length) :
    (∀ url : String, (init url).attributes.length = (init url).values.length) ∧
    (fetch_webpage s response).1.attributes.length
      = (fetch_webpage s response).1.values.length ∧
    (s.soup = some doc →
      (extract_table_data s).1.attributes.length
        = (extract_table_data s).1.values.length) ∧
    (create_dataframe s).attributeCol.length = (create_dataframe s).valueCol.length := by
  refine ⟨fun url => rfl, ?_, ?_, ?_⟩
  · unfold fetch_webpage
    split <;> exact hlen
  · intro hsoup
    rw [extract_table_data_some s doc hsoup]
    simp [retainedAttrs, retainedValues, hlen]
  · simp [create_dataframe, hlen]

/-- Witness for C8: the two lists stay the same length across a sample
extraction. -/
theorem parallel_lists_equal_length_witness :
    (extract_table_data sampleScraper).1.attributes.length
      = (extract_table_data sampleScraper).1.values.length :=
  (parallel_lists_equal_length sampleScraper
    { status_code := 200, content := sampleDoc } sampleDoc rfl).2.2.1 rfl

/-- C9: a first cell whose text is non-empty whitespace without the four
newline marker passes the retention check, and the final table then carries
an empty `Attribute` entry. -/
theorem whitespace_attribute_retained_then_blanked :
    create_dataframe
        (extract_table_data
          { url := "u",
            soup := some { tbodies :=
              [{ rows := [{ tds := [⟨"   ", none⟩, ⟨" 42 ", none⟩] }] }] },
            attributes := [], values := [] }).1
      = { attributeCol := [""], valueCol := ["42"] } := by decide

/-- C10: extraction is cumulative, never clearing the lists: the previous
contents stay a prefix, and running extraction twice from empty lists
duplicates the single-run result. -/
theorem double_extraction_duplicates (s : WebScraper) (doc : Doc)
    (hsoup : s.soup = some doc) :
    (s.attributes <+: (extract_table_data s).1.attributes ∧
     s.values <+: (extract_table_data s).1.values) ∧
    (s.attributes = [] → s.values = [] →
      (extract_table_data (extract_table_data s).1).1.attributes
        = (extract_table_data s).1.attributes ++ (extract_table_data s).1.attributes ∧
      (extract_table_data (extract_table_data s).1).1.values
        = (extract_table_data s).1.values ++ (extract_table_data s).1.values) := by
  have h1 := extract_table_data_some s doc hsoup
  have hsoup1 : (extract_table_data s).1.soup = some doc := by rw [h1]; exact hsoup
  have h2 := extract_table_data_some (extract_table_data s).1 doc hsoup1
  constructor
  · rw [h1]
    exact ⟨List.prefix_append _ _, List.prefix_append _ _⟩
  · intro ha hv
    rw [h2, h1]
    simp [ha, hv]

/-- Witness for C10: extracting the sample document twice doubles the
lists. -/
theorem double_extraction_duplicates_witness :
    (extract_table_data (extract_table_data sampleScraper).1).1.attributes
      = (extract_table_data sampleScraper).1.attributes
        ++ (extract_table_data sampleScraper).1.attributes :=
  ((double_extraction_duplicates sampleScraper sampleDoc rfl).2 rfl rfl).1

end WebScraper
